import Mathlib

/-! Floor plan designer (`src/floorplan.js`).

A shallow embedding of the authoring model of `FloorPlanDesigner`: the collections
`walls`, `doors`, `windows`, `rooms`, `dimensions`, the pending `tempPoints` buffer, the
`history` stack, and the operations `setTool`, `handleCanvasClick`, `drawWall`,
`createHatching`, `createDimension`, `addDoor`, `addWindow`, `drawRoom`, `undo`,
`clearAll`, `saveState`, `updateObjectCount` and `exportToPDF`.

Numbers.  JavaScript numbers are embedded as elements of a linearly ordered field `K`
with a floor function (`ℚ`, `ℝ`): arithmetic is exact, rounding error and overflow of
IEEE doubles are not represented.  The one operation of the program whose result can
leave the finite numbers, the division `i / hatchCount` of `createHatching`, is embedded
with an explicit non-finite result (`JS.div`).  The square root used by
`BABYLON.Vector3.length` is a parameter `sqrt : K → K`; the geometric theorems take
`K = ℝ` and `sqrt = Real.sqrt`.

Rendering.  Meshes, materials and textures live in the rendering engine.  Of a mesh the
embedding keeps the data that the program computes for it (index used in its name,
size, position, end points of its lines); rotation, colours and the door swing arc
(trigonometric) are left to the engine.
-/

namespace FloorPlan

/-! ## JavaScript numbers -/

/-- The function `Math.round`: the nearest integer, a tie going towards `+∞`. -/
def Math.round {K : Type} [LinearOrderedField K] [FloorRing K] (x : K) : ℤ :=
  ⌊x + 1 / 2⌋

/-- The function `Math.floor`. -/
def Math.floor {K : Type} [LinearOrderedField K] [FloorRing K] (x : K) : ℤ :=
  ⌊x⌋

/-- The method `Number.prototype.toFixed(0)` read as an integer: the nearest integer to
the magnitude (a tie going to the larger one), with the sign put back. -/
def Number.toFixed0 {K : Type} [LinearOrderedField K] [FloorRing K] (x : K) : ℤ :=
  if x < 0 then -⌊-x + 1 / 2⌋ else ⌊x + 1 / 2⌋

/-- The division `a / b` of two finite numbers.  `none` stands for a result that is no
finite number: `NaN` (for `0 / 0`) or `±Infinity`. -/
def JS.div {K : Type} [LinearOrderedField K] (a b : K) : Option K :=
  if b = 0 then none else some (a / b)

/-! ## `BABYLON.Vector3` -/

/-- A `BABYLON.Vector3` with finite coordinates. -/
@[ext]
structure Vector3 (K : Type) where
  x : K
  y : K
  z : K

namespace Vector3

variable {K : Type} [LinearOrderedField K]

/-- Modelled from the spec: `BABYLON.Vector3.subtract` is library code outside `src/`;
section 4.2 gives `direction(a,b) = b - a`, coordinate by coordinate. -/
def subtract (a b : Vector3 K) : Vector3 K :=
  ⟨a.x - b.x, a.y - b.y, a.z - b.z⟩

/-- Modelled from the spec: `BABYLON.Vector3.add` is library code outside `src/`; the
point offsetting of section 4.2, coordinate by coordinate. -/
def add (a b : Vector3 K) : Vector3 K :=
  ⟨a.x + b.x, a.y + b.y, a.z + b.z⟩

/-- Modelled from the spec: `BABYLON.Vector3.scale` is library code outside `src/`;
the product `v * c` of sections 4.2 and 4.3, coordinate by coordinate. -/
def scale (v : Vector3 K) (c : K) : Vector3 K :=
  ⟨v.x * c, v.y * c, v.z * c⟩

/-- The sum of the squares of the coordinates (`BABYLON.Vector3.lengthSquared`). -/
def lengthSquared (v : Vector3 K) : K :=
  v.x * v.x + v.y * v.y + v.z * v.z

/-- Modelled from the spec: `BABYLON.Vector3.length` is library code outside `src/`;
section 4.2 gives `length(v) = sqrt(v.x² + v.z²)`, here with the `y` coordinate that a
`Vector3` carries. -/
def length (sqrt : K → K) (v : Vector3 K) : K :=
  sqrt (lengthSquared v)

/-- Modelled from the spec: `BABYLON.Vector3.normalize` is library code outside `src/`;
section 4.2 asks for `v / length(v)` and for the zero vector to be returned as it is
(the library also returns a vector of length `1` as it is). -/
def normalize (sqrt : K → K) (v : Vector3 K) : Vector3 K :=
  let len := length sqrt v
  if len = 0 ∨ len = 1 then v else scale v (1 / len)

/-- Modelled from the spec: `BABYLON.Vector3.Lerp` is library code outside `src/`;
section 4.2 gives `lerp(a,b,t) = a + (b-a)*t`. -/
def Lerp (a b : Vector3 K) (t : K) : Vector3 K :=
  ⟨a.x + (b.x - a.x) * t, a.y + (b.y - a.y) * t, a.z + (b.z - a.z) * t⟩

/-- Modelled from the spec: `BABYLON.Vector3.Center` is library code outside `src/`;
section 4.2 gives `center(a,b) = (a+b)/2`. -/
def Center (a b : Vector3 K) : Vector3 K :=
  ⟨(a.x + b.x) / 2, (a.y + b.y) / 2, (a.z + b.z) / 2⟩

/-- The scalar product (`BABYLON.Vector3.Dot`), used to state perpendicularity. -/
def Dot (a b : Vector3 K) : K :=
  a.x * b.x + a.y * b.y + a.z * b.z

end Vector3

/-! ## The document -/

/-- The values of `currentTool` that `handleCanvasClick` dispatches on. -/
inductive Tool where
  | wall
  | door
  | window
  | room
deriving DecidableEq, Repr

/-- A line mesh through two points (`MeshBuilder.CreateLines` with `points: [a, b]`). -/
structure Segment (K : Type) where
  a : Vector3 K
  b : Vector3 K

/-- One hatch line of a wall, named `hatch${wall}_${i}`.  `points` is `none` when the
interpolation parameter `t` is no finite number, all coordinates then being `NaN`. -/
structure Hatch (K : Type) where
  wall : Nat
  i : Nat
  points : Option (Segment K)

/-- The object built by `createDimension`.  `index` is the number in the mesh names
`dim${index}`, `ext1_${index}`, `ext2_${index}`; `text` is the position of the label
plane; `value` is `lengthCm`. -/
structure Dimension (K : Type) where
  index : Nat
  lines : Segment K
  ext1 : Segment K
  ext2 : Segment K
  text : Vector3 K
  value : ℤ

/-- The box mesh of a wall, named `wall${index}`. -/
structure BoxMesh (K : Type) where
  index : Nat
  width : K
  height : K
  depth : K
  position : Vector3 K

/-- An entry of `walls`. -/
structure Wall (K : Type) where
  mesh : BoxMesh K
  start : Vector3 K
  end_ : Vector3 K
  thickness : K
  hatching : List (Hatch K)
  dimension : Dimension K

/-- An entry of `doors`; `index` is the number in the mesh names `door${index}`,
`doorArc${index}`. -/
structure Door (K : Type) where
  index : Nat
  position : Vector3 K

/-- An entry of `windows`; `index` is the number in the mesh name `window${index}`. -/
structure Window (K : Type) where
  index : Nat
  lines : List (Segment K)
  position : Vector3 K

/-- An entry of `history`, as pushed by `saveState`. -/
structure HistoryEntry where
  walls : Nat
  doors : Nat
  windows : Nat
deriving DecidableEq, Repr

/-- The fields of a `FloorPlanDesigner` that the authoring operations read and write.
`rooms` is declared by the constructor and written by no method.  `objectCount` is the
text of the element `#objectCount`, `none` until `updateObjectCount` first writes it. -/
structure State (K : Type) where
  currentTool : Option Tool
  walls : List (Wall K)
  doors : List (Door K)
  windows : List (Window K)
  rooms : List (Vector3 K)
  dimensions : List (Dimension K)
  tempPoints : List (Vector3 K)
  history : List HistoryEntry
  objectCount : Option Nat

/-- The state set up by the constructor: the empty document, no tool selected. -/
def emptyDocument (K : Type) : State K :=
  { currentTool := none, walls := [], doors := [], windows := [], rooms := [],
    dimensions := [], tempPoints := [], history := [], objectCount := none }

section Operations

variable {K : Type} [LinearOrderedField K] [FloorRing K]

/-- The method `setTool(tool)`; `none` is an argument that names no tool. -/
def setTool (s : State K) (tool : Option Tool) : State K :=
  { s with currentTool := tool, tempPoints := [] }

/-- The method `saveState()`. -/
def saveState (s : State K) : State K :=
  { s with history := s.history ++
      [{ walls := s.walls.length, doors := s.doors.length, windows := s.windows.length }] }

/-- The method `updateObjectCount()`. -/
def updateObjectCount (s : State K) : State K :=
  { s with objectCount := some (s.walls.length + s.doors.length + s.windows.length) }

/-- The point that `handleCanvasClick` builds from the picked point: both ground
coordinates snapped to the 0.5 m grid, `y = 0`. -/
def snap (p : Vector3 K) : Vector3 K :=
  ⟨(Math.round (p.x * 2) : K) / 2, 0, (Math.round (p.z * 2) : K) / 2⟩

/-- The method `createHatching(start, end, thickness)`.  The loop
`for (let i = 0; i <= hatchCount; i++)` pushes one line for each `i`. -/
def createHatching (sqrt : K → K) (s : State K) (start end_ : Vector3 K) (thickness : K) :
    List (Hatch K) :=
  let direction := end_.subtract start
  let length := direction.length sqrt
  let perpendicular := Vector3.normalize sqrt ⟨-direction.z, 0, direction.x⟩
  let hatchSpacing : K := 1 / 10
  let hatchCount : ℤ := Math.floor (length / hatchSpacing)
  (List.range (hatchCount + 1).toNat).map fun i =>
    { wall := s.walls.length
      i := i
      points := (JS.div (i : K) (hatchCount : K)).map fun t =>
        let pos := Vector3.Lerp start end_ t
        { a := pos.add (perpendicular.scale (thickness / 2))
          b := pos.add (perpendicular.scale (-thickness / 2)) } }

/-- The method `createTextPlane(text, position)`: the position given to the plane. -/
def createTextPlane (position : Vector3 K) : Vector3 K :=
  position.add ⟨0, 3 / 10, 0⟩

/-- The method `createDimension(start, end, length)`: the dimension object it returns
and the state after `this.dimensions.push(dimension)`. -/
def createDimension (sqrt : K → K) (s : State K) (start end_ : Vector3 K) (length : K) :
    Dimension K × State K :=
  let direction := end_.subtract start
  let perpendicular := Vector3.normalize sqrt ⟨-direction.z, 0, direction.x⟩
  let offset := perpendicular.scale (1 / 2)
  let dimStart := start.add offset
  let dimEnd := end_.add offset
  let dimMid := Vector3.Center dimStart dimEnd
  let lengthCm := Number.toFixed0 (length * 100)
  let dimension : Dimension K :=
    { index := s.dimensions.length
      lines := ⟨dimStart, dimEnd⟩
      ext1 := ⟨start, dimStart⟩
      ext2 := ⟨end_, dimEnd⟩
      text := createTextPlane dimMid
      value := lengthCm }
  (dimension, { s with dimensions := s.dimensions ++ [dimension] })

/-- The method `drawWall(point)`.  `wallThickness` is `parseInt` of the value of the
input `#wallThickness`, in centimetres.  The second branch of the match is the test
`this.tempPoints.length === 2` with `start = tempPoints[0]`, `end = tempPoints[1]`. -/
def drawWall (sqrt : K → K) (wallThickness : K) (s : State K) (point : Vector3 K) :
    State K :=
  let s1 := { s with tempPoints := s.tempPoints ++ [point] }
  match s1.tempPoints with
  | [start, end_] =>
    let thickness := wallThickness / 100
    let direction := end_.subtract start
    let length := direction.length sqrt
    let center := Vector3.Center start end_
    let wall : BoxMesh K :=
      { index := s1.walls.length, width := thickness, height := 1 / 10, depth := length,
        position := { center with y := 1 / 20 } }
    let hatching := createHatching sqrt s1 start end_ thickness
    let (dimension, s2) := createDimension sqrt s1 start end_ length
    let s3 := { s2 with walls := s2.walls ++
      [{ mesh := wall, start := start, end_ := end_, thickness := thickness,
         hatching := hatching, dimension := dimension }] }
    let s4 := saveState s3
    { s4 with tempPoints := [] }
  | _ => s1

/-- The method `addDoor(point)`.  `door.position = point` hands the vector itself to the
mesh, so `door.position.y = 0.05` also sets `y` of the `position` that is stored. -/
def addDoor (s : State K) (point : Vector3 K) : State K :=
  let point1 := { point with y := 1 / 20 }
  saveState { s with doors := s.doors ++ [{ index := s.doors.length, position := point1 }] }

/-- The method `addWindow(point)`.  The position is shared with the mesh as in
`addDoor`; the two mullion lines are built with `y = 0`. -/
def addWindow (s : State K) (point : Vector3 K) : State K :=
  let windowWidth : K := 12 / 10
  let point1 := { point with y := 1 / 20 }
  let line1 : Segment K :=
    ⟨⟨point1.x, 0, point1.z - windowWidth / 2⟩, ⟨point1.x, 0, point1.z + windowWidth / 2⟩⟩
  let line2 : Segment K :=
    ⟨⟨point1.x - 1 / 20, 0, point1.z⟩, ⟨point1.x + 1 / 20, 0, point1.z⟩⟩
  saveState { s with windows := s.windows ++
    [{ index := s.windows.length, lines := [line1, line2], position := point1 }] }

/-- The method `drawRoom(point)`: the point joins `tempPoints`; the marker sphere is
handed to the engine and kept nowhere in the document. -/
def drawRoom (s : State K) (point : Vector3 K) : State K :=
  { s with tempPoints := s.tempPoints ++ [point] }

/-- The method `undo()`. -/
def undo (s : State K) : State K :=
  if s.history.length > 0 then
    let s1 := { s with history := s.history.dropLast }
    let s2 := if s1.walls.length > 0 then { s1 with walls := s1.walls.dropLast } else s1
    updateObjectCount s2
  else s

/-- The method `clearAll()`. -/
def clearAll (s : State K) : State K :=
  updateObjectCount
    { s with walls := [], doors := [], windows := [], dimensions := [], history := [],
             tempPoints := [] }

/-- The method `handleCanvasClick(evt)`.  `pickResult` is `none` when the pick hits
nothing, else the picked point; `wallThickness` is the input read by `drawWall`. -/
def handleCanvasClick (sqrt : K → K) (wallThickness : K) (s : State K)
    (pickResult : Option (Vector3 K)) : State K :=
  match pickResult with
  | none => s
  | some pickedPoint =>
    let point := snap pickedPoint
    let s1 :=
      match s.currentTool with
      | some Tool.wall => drawWall sqrt wallThickness s point
      | some Tool.door => addDoor s point
      | some Tool.window => addWindow s point
      | some Tool.room => drawRoom s point
      | none => s
    updateObjectCount s1

end Operations

/-! ## Export -/

/-- A call made on the `jsPDF` document by `exportToPDF`. -/
inductive PdfOp where
  | setFontSize (size : Nat)
  | text (content : String) (x y : Nat)
  | addImage (imageData : String) (x y w h : Nat)
  | setFillColor (r g b : Nat)
  | rect (x y w h : Nat)
  | save
deriving DecidableEq, Repr

/-- The method `exportToPDF()`: the calls it makes on the document, in order.  `date` is
`new Date().toLocaleDateString()`; `imageData` is the screenshot, `none` when
`captureSceneAsImage` throws and the `catch` branch runs. -/
def exportToPDF {K : Type} (s : State K) (date : String) (imageData : Option String) :
    List PdfOp :=
  [ PdfOp.setFontSize 20,
    PdfOp.text "Architectural Floor Plan" 148 20,
    PdfOp.setFontSize 10,
    PdfOp.text ("Date: " ++ date) 20 30,
    PdfOp.setFontSize 12,
    PdfOp.text "Project: Custom Floor Plan" 20 40,
    PdfOp.text ("Total Elements: " ++
      toString (s.walls.length + s.doors.length + s.windows.length)) 20 47,
    PdfOp.text ("Walls: " ++ toString s.walls.length) 20 54,
    PdfOp.text ("Doors: " ++ toString s.doors.length) 20 61,
    PdfOp.text ("Windows: " ++ toString s.windows.length) 20 68 ] ++
  (match imageData with
   | some data => [PdfOp.addImage data 20 80 257 120]
   | none => []) ++
  [ PdfOp.setFontSize 10,
    PdfOp.text "Scale: 1:100 (approximate)" 20 205,
    PdfOp.setFontSize 12,
    PdfOp.text "Legend:" 20 180,
    PdfOp.setFontSize 10,
    PdfOp.setFillColor 44 62 80,
    PdfOp.rect 25 185 5 3,
    PdfOp.text "Walls" 35 188,
    PdfOp.setFillColor 153 102 51,
    PdfOp.rect 25 192 5 3,
    PdfOp.text "Doors" 35 195,
    PdfOp.setFillColor 128 179 230,
    PdfOp.rect 25 199 5 3,
    PdfOp.text "Windows" 35 202,
    PdfOp.save ]

/-- The strings written by the `text` calls among `ops`, in order. -/
def PdfOp.texts (ops : List PdfOp) : List String :=
  ops.filterMap fun op =>
    match op with
    | PdfOp.text content _ _ => some content
    | _ => none

/-! ## Sequences of calls -/

/-- A call of one of the methods that change the document, with its inputs. -/
inductive Event (K : Type) where
  | setTool (tool : Option Tool)
  | handleCanvasClick (wallThickness : K) (pickResult : Option (Vector3 K))
  | drawWall (wallThickness : K) (point : Vector3 K)
  | addDoor (point : Vector3 K)
  | addWindow (point : Vector3 K)
  | drawRoom (point : Vector3 K)
  | undo
  | clearAll

section Runs

variable {K : Type} [LinearOrderedField K] [FloorRing K]

/-- The state after one call. -/
def step (sqrt : K → K) (s : State K) : Event K → State K
  | Event.setTool tool => setTool s tool
  | Event.handleCanvasClick wallThickness pickResult =>
      handleCanvasClick sqrt wallThickness s pickResult
  | Event.drawWall wallThickness point => drawWall sqrt wallThickness s point
  | Event.addDoor point => addDoor s point
  | Event.addWindow point => addWindow s point
  | Event.drawRoom point => drawRoom s point
  | Event.undo => undo s
  | Event.clearAll => clearAll s

/-- The state after a sequence of calls, made one after the other. -/
def run (sqrt : K → K) (s : State K) (events : List (Event K)) : State K :=
  events.foldl (step sqrt) s

/-- The state after the points `pts` are submitted to `drawWall` one after the other,
each with the wall thickness input read at that call. -/
def drawWalls (sqrt : K → K) (s : State K) (pts : List (K × Vector3 K)) : State K :=
  pts.foldl (fun t p => drawWall sqrt p.1 t p.2) s

/-- The state after clicks on the canvas that hit the points `picks`, one after the
other, each with the wall thickness input read at that click. -/
def clicks (sqrt : K → K) (s : State K) (picks : List (K × Vector3 K)) : State K :=
  picks.foldl (fun t p => handleCanvasClick sqrt p.1 t (some p.2)) s

end Runs

/-! ## Lemmas on the operations -/

section Lemmas

variable {K : Type} [LinearOrderedField K] [FloorRing K]

theorem drawWall_first (sqrt : K → K) (th : K) (s : State K) (p : Vector3 K)
    (h : s.tempPoints = []) :
    drawWall sqrt th s p = { s with tempPoints := [p] } := by
  simp [drawWall, h]

theorem drawWall_second (sqrt : K → K) (th : K) (s : State K) (a p : Vector3 K)
    (h : s.tempPoints = [a]) :
    ∃ w d,
      drawWall sqrt th s p =
        { s with walls := s.walls ++ [w], dimensions := s.dimensions ++ [d],
                 history := s.history ++ [⟨s.walls.length + 1, s.doors.length,
                   s.windows.length⟩],
                 tempPoints := [] } ∧
      w.start = a ∧ w.end_ = p ∧ w.dimension = d ∧
      w.mesh.depth = (p.subtract a).length sqrt := by
  obtain ⟨ct, ws, ds, wins, rs, dims, tp, hist, oc⟩ := s
  simp only at h
  subst h
  let s1 : State K := ⟨ct, ws, ds, wins, rs, dims, [a, p], hist, oc⟩
  let d := (createDimension sqrt s1 a p ((p.subtract a).length sqrt)).1
  refine ⟨⟨⟨ws.length, th / 100, 1 / 10, (p.subtract a).length sqrt,
    { Vector3.Center a p with y := 1 / 20 }⟩, a, p, th / 100,
    createHatching sqrt s1 a p (th / 100), d⟩, d, ?_, rfl, rfl, rfl, rfl⟩
  simp [drawWall, createDimension, saveState, d, s1]

theorem drawWall_pair (sqrt : K → K) (th1 th2 : K) (s : State K) (p q : Vector3 K)
    (h : s.tempPoints = []) :
    ∃ w : Wall K,
      (drawWall sqrt th2 (drawWall sqrt th1 s p) q).walls = s.walls ++ [w] ∧
      w.start = p ∧ w.end_ = q ∧ w.mesh.depth = (q.subtract p).length sqrt ∧
      (drawWall sqrt th2 (drawWall sqrt th1 s p) q).dimensions =
        s.dimensions ++ [w.dimension] ∧
      (drawWall sqrt th2 (drawWall sqrt th1 s p) q).history =
        s.history ++ [⟨s.walls.length + 1, s.doors.length, s.windows.length⟩] ∧
      (drawWall sqrt th2 (drawWall sqrt th1 s p) q).tempPoints = [] ∧
      (drawWall sqrt th2 (drawWall sqrt th1 s p) q).doors = s.doors ∧
      (drawWall sqrt th2 (drawWall sqrt th1 s p) q).windows = s.windows ∧
      (drawWall sqrt th2 (drawWall sqrt th1 s p) q).currentTool = s.currentTool := by
  have h1 := drawWall_first sqrt th1 s p h
  obtain ⟨w, d, h2, hs, he, hd, hm⟩ :=
    drawWall_second sqrt th2 (drawWall sqrt th1 s p) p q (by rw [h1])
  refine ⟨w, ?_, hs, he, hm, ?_, ?_, ?_, ?_, ?_, ?_⟩ <;> rw [h2, h1]
  rw [hd]

theorem drawWalls_pairs (sqrt : K → K) (N : ℕ) :
    ∀ (pts : List (K × Vector3 K)) (s : State K), pts.length = 2 * N → s.tempPoints = [] →
      (drawWalls sqrt s pts).walls.length = s.walls.length + N ∧
      (drawWalls sqrt s pts).history.length = s.history.length + N ∧
      (drawWalls sqrt s pts).tempPoints = [] ∧
      (drawWalls sqrt s pts).doors = s.doors ∧
      (drawWalls sqrt s pts).windows = s.windows := by
  induction N with
  | zero =>
    intro pts s hlen htp
    have : pts = [] := List.length_eq_zero.mp (by simpa using hlen)
    subst this
    simp [drawWalls, htp]
  | succ n ih =>
    intro pts s hlen htp
    match pts, hlen with
    | p :: q :: rest, hlen =>
      have hrest : rest.length = 2 * n := by
        simp only [List.length_cons] at hlen
        omega
      obtain ⟨w, b1, -, -, -, -, b2, b3, b4, b5, -⟩ :=
        drawWall_pair sqrt p.1 q.1 s p.2 q.2 htp
      have hfold : drawWalls sqrt s (p :: q :: rest) =
          drawWalls sqrt (drawWall sqrt q.1 (drawWall sqrt p.1 s p.2) q.2) rest := rfl
      rw [hfold]
      obtain ⟨a1, a2, a3, a4, a5⟩ :=
        ih rest (drawWall sqrt q.1 (drawWall sqrt p.1 s p.2) q.2) hrest b3
      refine ⟨?_, ?_, a3, ?_, ?_⟩
      · rw [a1, b1]; simp only [List.length_append, List.length_singleton]; omega
      · rw [a2, b2]; simp only [List.length_append, List.length_singleton]; omega
      · rw [a4, b4]
      · rw [a5, b5]

end Lemmas

section UndoLemmas

variable {K : Type}

theorem undo_empty_history (s : State K) (h : s.history = []) : undo s = s := by
  simp [undo, h]

theorem undo_doors (s : State K) : (undo s).doors = s.doors := by
  unfold undo
  dsimp only
  split_ifs <;> rfl

theorem undo_windows (s : State K) : (undo s).windows = s.windows := by
  unfold undo
  dsimp only
  split_ifs <;> rfl

theorem undo_history (s : State K) : (undo s).history = s.history.dropLast := by
  unfold undo
  dsimp only
  split_ifs with h1 h2
  · rfl
  · rfl
  · have : s.history = [] := List.length_eq_zero.mp (by omega)
    simp [this]

theorem undo_walls (s : State K) (h : s.history ≠ []) :
    (undo s).walls = s.walls.dropLast := by
  have hpos : s.history.length > 0 := List.length_pos.mpr h
  unfold undo
  rw [if_pos hpos]
  dsimp only
  split_ifs with h2
  · rfl
  · have : s.walls = [] := List.length_eq_zero.mp (by omega)
    simp [updateObjectCount, this]

theorem undo_iterate (n : ℕ) :
    ∀ s : State K, s.walls.length = n → s.history.length = n →
      (undo^[n] s).walls = [] ∧ (undo^[n] s).history = [] := by
  induction n with
  | zero =>
    intro s hw hh
    exact ⟨List.length_eq_zero.mp hw, List.length_eq_zero.mp hh⟩
  | succ n ih =>
    intro s hw hh
    rw [Function.iterate_succ_apply]
    have hne : s.history ≠ [] := by
      intro h0
      rw [h0] at hh
      simp at hh
    apply ih
    · rw [undo_walls s hne, List.length_dropLast, hw]; rfl
    · rw [undo_history, List.length_dropLast, hh]; rfl

end UndoLemmas

/-! ## Undo, clear and the two-click wall -/

section Document

/-- C1: from the empty document with the wall tool selected, after `2 * N` points are
submitted to `drawWall` (whatever the points and the thickness input), `N` walls and `N`
history entries are there; `N` calls of `undo` leave `walls` and `history` empty; and
one more call of `undo` returns the state it was given, every field unchanged. -/
theorem undo_of_added_walls {K : Type} [LinearOrderedField K] [FloorRing K]
    (sqrt : K → K) (N : ℕ) (pts : List (K × Vector3 K))
    (h : pts.length = 2 * N) :
    (drawWalls sqrt (setTool (emptyDocument K) (some Tool.wall)) pts).walls.length = N ∧
    (drawWalls sqrt (setTool (emptyDocument K) (some Tool.wall)) pts).history.length = N ∧
    (undo^[N] (drawWalls sqrt (setTool (emptyDocument K) (some Tool.wall)) pts)).walls
      = [] ∧
    (undo^[N] (drawWalls sqrt (setTool (emptyDocument K) (some Tool.wall)) pts)).history
      = [] ∧
    undo (undo^[N] (drawWalls sqrt (setTool (emptyDocument K) (some Tool.wall)) pts)) =
      undo^[N] (drawWalls sqrt (setTool (emptyDocument K) (some Tool.wall)) pts) := by
  obtain ⟨hw, hh, -, -, -⟩ :=
    drawWalls_pairs sqrt N pts (setTool (emptyDocument K) (some Tool.wall)) h rfl
  have hw0 : (drawWalls sqrt (setTool (emptyDocument K) (some Tool.wall)) pts).walls.length
      = N := by
    rw [hw]; simp [setTool, emptyDocument]
  have hh0 : (drawWalls sqrt (setTool (emptyDocument K) (some Tool.wall)) pts).history.length
      = N := by
    rw [hh]; simp [setTool, emptyDocument]
  obtain ⟨u1, u2⟩ := undo_iterate N _ hw0 hh0
  exact ⟨hw0, hh0, u1, u2, undo_empty_history _ u2⟩

/-- Witness of C1: two walls drawn by four point submissions, `N = 2`. -/
theorem undo_of_added_walls_witness :
    ([(20, ⟨0, 0, 0⟩), (20, ⟨3, 0, 0⟩), (20, ⟨3, 0, 0⟩), (15, ⟨3, 0, 2⟩)] :
      List (ℚ × Vector3 ℚ)).length = 2 * 2 ∧
    (undo^[2] (drawWalls Rat.sqrt (setTool (emptyDocument ℚ) (some Tool.wall))
      [(20, ⟨0, 0, 0⟩), (20, ⟨3, 0, 0⟩), (20, ⟨3, 0, 0⟩), (15, ⟨3, 0, 2⟩)])).walls = [] :=
  ⟨rfl, (undo_of_added_walls Rat.sqrt 2
    [(20, ⟨0, 0, 0⟩), (20, ⟨3, 0, 0⟩), (20, ⟨3, 0, 0⟩), (15, ⟨3, 0, 2⟩)] rfl).2.2.1⟩

/-- C2: in a state with no walls, `addDoor(point)` followed by `undo()` keeps the door:
`doors` after the undo is `doors` after the add, the old entries followed by the new
door; the history entry pushed by `addDoor` is popped, so `history` is back to what it
was; `walls` stays empty.  In every state `undo` leaves `doors` and `windows` as they
are. -/
theorem undo_keeps_door {K : Type} [LinearOrderedField K] (s : State K)
    (point : Vector3 K) (h : s.walls = []) :
    (undo (addDoor s point)).doors = (addDoor s point).doors ∧
    (undo (addDoor s point)).doors =
      s.doors ++ [{ index := s.doors.length, position := { point with y := 1 / 20 } }] ∧
    (undo (addDoor s point)).doors.length = (addDoor s point).doors.length ∧
    (addDoor s point).history.length = s.history.length + 1 ∧
    (undo (addDoor s point)).history = s.history ∧
    (undo (addDoor s point)).walls = [] ∧
    ∀ t : State K, (undo t).doors = t.doors ∧ (undo t).windows = t.windows := by
  have hne : (addDoor s point).history ≠ [] := by simp [addDoor, saveState]
  refine ⟨undo_doors _, ?_, ?_, ?_, ?_, ?_, fun t => ⟨undo_doors t, undo_windows t⟩⟩
  · rw [undo_doors]; rfl
  · rw [undo_doors]
  · simp [addDoor, saveState]
  · rw [undo_history]; simp [addDoor, saveState]
  · rw [undo_walls _ hne]
    simp [addDoor, saveState, h]

/-- Witness of C2: a door added at `(1, 0, 2)` to the empty document. -/
theorem undo_keeps_door_witness :
    (emptyDocument ℚ).walls = [] ∧
    (undo (addDoor (emptyDocument ℚ) ⟨1, 0, 2⟩)).doors.length = 1 ∧
    (undo (addDoor (emptyDocument ℚ) ⟨1, 0, 2⟩)).history = [] :=
  ⟨rfl,
   (undo_keeps_door (emptyDocument ℚ) ⟨1, 0, 2⟩ rfl).2.2.1,
   (undo_keeps_door (emptyDocument ℚ) ⟨1, 0, 2⟩ rfl).2.2.2.2.1⟩

/-- C3: whatever calls were made before (point submissions, `addDoor`, `addWindow`,
room clicks, `undo`, in any order and from any state), after `clearAll()` the
collections `walls`, `doors`, `windows`, `dimensions`, `history` and `tempPoints` are
empty and the count written by `updateObjectCount` is `0`. -/
theorem clearAll_after_any_run {K : Type} [LinearOrderedField K] [FloorRing K]
    (sqrt : K → K) (s : State K) (events : List (Event K)) :
    (clearAll (run sqrt s events)).walls = [] ∧
    (clearAll (run sqrt s events)).doors = [] ∧
    (clearAll (run sqrt s events)).windows = [] ∧
    (clearAll (run sqrt s events)).dimensions = [] ∧
    (clearAll (run sqrt s events)).history = [] ∧
    (clearAll (run sqrt s events)).tempPoints = [] ∧
    (clearAll (run sqrt s events)).objectCount = some 0 :=
  ⟨rfl, rfl, rfl, rfl, rfl, rfl, rfl⟩

/-- C4: in every state, after `setTool('wall')` the first `drawWall(p1)` adds no wall and
no history entry and buffers `p1`; the second `drawWall(p2)` appends exactly one wall,
with `start = p1` and `end = p2`, pushes exactly one history entry, empties
`tempPoints` and leaves `doors` and `windows` as they were.  From the empty document
with `p1 = (0,0)` and `p2 = (3,0)` there is one wall, of length `3`, and one history
entry. -/
theorem two_click_wall {K : Type} [LinearOrderedField K] [FloorRing K] (sqrt : K → K)
    (th1 th2 : K) (s : State K) (p1 p2 : Vector3 K) :
    ((drawWall sqrt th1 (setTool s (some Tool.wall)) p1).walls = s.walls ∧
     (drawWall sqrt th1 (setTool s (some Tool.wall)) p1).history = s.history ∧
     (drawWall sqrt th1 (setTool s (some Tool.wall)) p1).tempPoints = [p1]) ∧
    (∃ w e,
      (drawWall sqrt th2 (drawWall sqrt th1 (setTool s (some Tool.wall)) p1) p2).walls =
        s.walls ++ [w] ∧ w.start = p1 ∧ w.end_ = p2 ∧
      (drawWall sqrt th2 (drawWall sqrt th1 (setTool s (some Tool.wall)) p1) p2).history =
        s.history ++ [e]) ∧
    (drawWall sqrt th2 (drawWall sqrt th1 (setTool s (some Tool.wall)) p1) p2).tempPoints
      = [] ∧
    (drawWall sqrt th2 (drawWall sqrt th1 (setTool s (some Tool.wall)) p1) p2).doors
      = s.doors ∧
    (drawWall sqrt th2 (drawWall sqrt th1 (setTool s (some Tool.wall)) p1) p2).windows
      = s.windows ∧
    (∀ t1 t2 : ℝ, ∃ w e,
      (drawWall Real.sqrt t2 (drawWall Real.sqrt t1
        (setTool (emptyDocument ℝ) (some Tool.wall)) ⟨0, 0, 0⟩) ⟨3, 0, 0⟩).walls = [w] ∧
      (w.end_.subtract w.start).length Real.sqrt = 3 ∧ w.mesh.depth = 3 ∧
      (drawWall Real.sqrt t2 (drawWall Real.sqrt t1
        (setTool (emptyDocument ℝ) (some Tool.wall)) ⟨0, 0, 0⟩) ⟨3, 0, 0⟩).history = [e]) := by
  have h1 := drawWall_first sqrt th1 (setTool s (some Tool.wall)) p1 rfl
  obtain ⟨w, a1, a2, a3, -, -, a6, a7, a8, a9, -⟩ :=
    drawWall_pair sqrt th1 th2 (setTool s (some Tool.wall)) p1 p2 rfl
  refine ⟨⟨by rw [h1]; rfl, by rw [h1]; rfl, by rw [h1]⟩, ⟨w, _, a1, a2, a3, a6⟩,
    a7, a8, a9, ?_⟩
  intro t1 t2
  obtain ⟨w, b1, b2, b3, b4, -, b6, -⟩ :=
    drawWall_pair Real.sqrt t1 t2 (setTool (emptyDocument ℝ) (some Tool.wall))
      ⟨0, 0, 0⟩ ⟨3, 0, 0⟩ rfl
  have h9 : Vector3.length Real.sqrt
      (Vector3.subtract (⟨3, 0, 0⟩ : Vector3 ℝ) ⟨0, 0, 0⟩) = 3 := by
    have : Vector3.lengthSquared
        (Vector3.subtract (⟨3, 0, 0⟩ : Vector3 ℝ) ⟨0, 0, 0⟩) = 3 ^ 2 := by
      simp only [Vector3.lengthSquared, Vector3.subtract]
      norm_num
    rw [Vector3.length, this, Real.sqrt_sq (by norm_num)]
  refine ⟨w, _, b1, ?_, ?_, b6⟩
  · rw [b2, b3]; exact h9
  · rw [b4]; exact h9

end Document

/-! ## Snap -/

section Snap

variable {K : Type} [LinearOrderedField K] [FloorRing K]

theorem round_half_int (r : ℤ) : Math.round ((r : K) / 2 * 2) = r := by
  have h0 : ⌊(1 / 2 : K)⌋ = 0 := by
    rw [Int.floor_eq_iff]
    norm_num
  unfold Math.round
  rw [div_mul_cancel₀ _ (two_ne_zero : (2 : K) ≠ 0), Int.floor_int_add, h0, add_zero]

theorem round_nearest (x : K) (m : ℤ) :
    |(Math.round (x * 2) : K) / 2 - x| ≤ |(m : K) / 2 - x| := by
  have h1 : ((Math.round (x * 2) : ℤ) : K) ≤ x * 2 + 1 / 2 := Int.floor_le _
  have h2 : x * 2 + 1 / 2 < ((Math.round (x * 2) : ℤ) : K) + 1 := Int.lt_floor_add_one _
  rcases lt_trichotomy m (Math.round (x * 2)) with h | h | h
  · have h3 : (m : K) + 1 ≤ ((Math.round (x * 2) : ℤ) : K) := by exact_mod_cast h
    rcases abs_cases ((m : K) / 2 - x) with ⟨he, _⟩ | ⟨he, _⟩ <;> rw [he] <;>
      exact abs_le.mpr ⟨by linarith, by linarith⟩
  · rw [h]
  · have h3 : ((Math.round (x * 2) : ℤ) : K) + 1 ≤ (m : K) := by exact_mod_cast h
    rcases abs_cases ((m : K) / 2 - x) with ⟨he, _⟩ | ⟨he, _⟩ <;> rw [he] <;>
      exact abs_le.mpr ⟨by linarith, by linarith⟩

end Snap

/-- C5: the snap of `handleCanvasClick` is idempotent; the point it returns is a point
of the 0.5 m grid (both ground coordinates are half-integers), and no point of that grid
is nearer to the picked point, coordinate by coordinate and in the plane;
`snap(1.24, 0.24) = (1.0, 0.0)` and `snap(1.26, 0.26) = (1.5, 0.5)`. -/
theorem snap_idempotent_nearest {K : Type} [LinearOrderedField K] [FloorRing K]
    (p : Vector3 K) :
    snap (snap p) = snap p ∧
    (∃ m n : ℤ, snap p = ⟨(m : K) / 2, 0, (n : K) / 2⟩) ∧
    (∀ m : ℤ, |(snap p).x - p.x| ≤ |(m : K) / 2 - p.x|) ∧
    (∀ n : ℤ, |(snap p).z - p.z| ≤ |(n : K) / 2 - p.z|) ∧
    (∀ m n : ℤ, ((snap p).x - p.x) ^ 2 + ((snap p).z - p.z) ^ 2 ≤
      ((m : K) / 2 - p.x) ^ 2 + ((n : K) / 2 - p.z) ^ 2) ∧
    snap (⟨1.24, 0, 0.24⟩ : Vector3 K) = ⟨1.0, 0, 0.0⟩ ∧
    snap (⟨1.26, 0, 0.26⟩ : Vector3 K) = ⟨1.5, 0, 0.5⟩ := by
  refine ⟨?_, ⟨_, _, rfl⟩, fun m => round_nearest p.x m, fun n => round_nearest p.z n,
    fun m n => ?_, ?_, ?_⟩
  · simp only [snap, round_half_int]
  · exact add_le_add (sq_le_sq.mpr (round_nearest p.x m)) (sq_le_sq.mpr (round_nearest p.z n))
  · have hx : Math.round ((1.24 : K) * 2) = 1 * 2 := by
      unfold Math.round
      rw [Int.floor_eq_iff]
      norm_num
    have hz : Math.round ((0.24 : K) * 2) = 0 := by
      unfold Math.round
      rw [Int.floor_eq_iff]
      norm_num
    simp only [snap, hx, hz]
    norm_num
  · have hx : Math.round ((1.26 : K) * 2) = 3 := by
      unfold Math.round
      rw [Int.floor_eq_iff]
      norm_num
    have hz : Math.round ((0.26 : K) * 2) = 1 := by
      unfold Math.round
      rw [Int.floor_eq_iff]
      norm_num
    simp only [snap, hx, hz]
    norm_num

/-! ## Export -/

/-- C10: the texts written by `exportToPDF` report `walls.length + doors.length +
windows.length` as total, and `walls.length`, `doors.length`, `windows.length` as the
three counts (`rooms` and `tempPoints` take no part); after `Legend:` come `Walls`,
`Doors`, `Windows`, in that order, whatever the counts and whether or not the
screenshot was captured.  With two walls, one door and no window the total is 3 and the
wall count 2. -/
theorem exportToPDF_counts {K : Type} (s : State K) (date : String)
    (imageData : Option String) :
    PdfOp.texts (exportToPDF s date imageData) =
      [ "Architectural Floor Plan", "Date: " ++ date, "Project: Custom Floor Plan",
        "Total Elements: " ++ toString (s.walls.length + s.doors.length + s.windows.length),
        "Walls: " ++ toString s.walls.length,
        "Doors: " ++ toString s.doors.length,
        "Windows: " ++ toString s.windows.length,
        "Scale: 1:100 (approximate)", "Legend:", "Walls", "Doors", "Windows" ] ∧
    (PdfOp.texts (exportToPDF s date imageData)).drop 9 = ["Walls", "Doors", "Windows"] ∧
    (∀ (w1 w2 : Wall K) (d : Door K),
      PdfOp.texts (exportToPDF { s with walls := [w1, w2], doors := [d], windows := [] }
        date imageData) =
      [ "Architectural Floor Plan", "Date: " ++ date, "Project: Custom Floor Plan",
        "Total Elements: 3", "Walls: 2", "Doors: 1", "Windows: 0",
        "Scale: 1:100 (approximate)", "Legend:", "Walls", "Doors", "Windows" ]) := by
  have e1 : "Total Elements: " ++ toString (2 + 1 + 0) = "Total Elements: 3" := by decide
  have e2 : "Walls: " ++ toString 2 = "Walls: 2" := by decide
  have e3 : "Doors: " ++ toString 1 = "Doors: 1" := by decide
  have e4 : "Windows: " ++ toString 0 = "Windows: 0" := by decide
  rw [← e1, ← e2, ← e3, ← e4]
  cases imageData <;> exact ⟨rfl, rfl, fun _ _ _ => rfl⟩

/-! ## Ownership of dimensions -/

/-- C8 (the code at the failing input): one wall drawn with two clicks and then undone.
Before the undo there is one wall and its one dimension; after it `walls` is empty and
`dimensions` still holds that dimension, owned by no wall. -/
theorem undo_leaves_dimension :
    (run Rat.sqrt (emptyDocument ℚ)
      [Event.setTool (some Tool.wall), Event.handleCanvasClick 20 (some ⟨0, 0, 0⟩),
       Event.handleCanvasClick 20 (some ⟨3, 0, 0⟩)]).walls.length = 1 ∧
    (run Rat.sqrt (emptyDocument ℚ)
      [Event.setTool (some Tool.wall), Event.handleCanvasClick 20 (some ⟨0, 0, 0⟩),
       Event.handleCanvasClick 20 (some ⟨3, 0, 0⟩)]).dimensions.length = 1 ∧
    (run Rat.sqrt (emptyDocument ℚ)
      [Event.setTool (some Tool.wall), Event.handleCanvasClick 20 (some ⟨0, 0, 0⟩),
       Event.handleCanvasClick 20 (some ⟨3, 0, 0⟩), Event.undo]).walls = [] ∧
    (run Rat.sqrt (emptyDocument ℚ)
      [Event.setTool (some Tool.wall), Event.handleCanvasClick 20 (some ⟨0, 0, 0⟩),
       Event.handleCanvasClick 20 (some ⟨3, 0, 0⟩), Event.undo]).dimensions.length = 1 :=
  ⟨rfl, rfl, rfl, rfl⟩

/-! ## Walls drawn by clicks -/

section Clicks

variable {K : Type} [LinearOrderedField K] [FloorRing K]

theorem click_wall_first (sqrt : K → K) (th : K) (s : State K) (p : Vector3 K)
    (ht : s.currentTool = some Tool.wall) (h : s.tempPoints = []) :
    (handleCanvasClick sqrt th s (some p)).walls = s.walls ∧
    (handleCanvasClick sqrt th s (some p)).tempPoints = [snap p] ∧
    (handleCanvasClick sqrt th s (some p)).currentTool = some Tool.wall := by
  simp only [handleCanvasClick, ht, drawWall_first sqrt th s (snap p) h, updateObjectCount]
  exact ⟨trivial, trivial, trivial⟩

theorem click_wall_second (sqrt : K → K) (th : K) (s : State K) (a p : Vector3 K)
    (ht : s.currentTool = some Tool.wall) (h : s.tempPoints = [a]) :
    ∃ w : Wall K,
      (handleCanvasClick sqrt th s (some p)).walls = s.walls ++ [w] ∧
      w.start = a ∧ w.end_ = snap p ∧
      (handleCanvasClick sqrt th s (some p)).tempPoints = [] ∧
      (handleCanvasClick sqrt th s (some p)).currentTool = some Tool.wall := by
  obtain ⟨w, d, h2, hs, he, -, -⟩ := drawWall_second sqrt th s a (snap p) h
  refine ⟨w, ?_, hs, he, ?_, ?_⟩ <;>
    simp only [handleCanvasClick, ht, h2, updateObjectCount]

theorem clicks_pairs_distinct (sqrt : K → K) :
    ∀ (picks : List (K × Vector3 K)) (s : State K),
      s.currentTool = some Tool.wall → s.tempPoints = [] →
      (∀ w ∈ s.walls, w.start ≠ w.end_) →
      (∀ (k : ℕ) (a b : K × Vector3 K), picks[2 * k]? = some a → picks[2 * k + 1]? = some b →
        snap a.2 ≠ snap b.2) →
      ∀ w ∈ (clicks sqrt s picks).walls, w.start ≠ w.end_
  | [], _, _, _, hw, _ => hw
  | [a], s, ht, htp, hw, _ => by
    obtain ⟨c1, -, -⟩ := click_wall_first sqrt a.1 s a.2 ht htp
    have hstep : clicks sqrt s [a] = handleCanvasClick sqrt a.1 s (some a.2) := rfl
    rw [hstep, c1]
    exact hw
  | a :: b :: rest, s, ht, htp, hw, hp => by
    obtain ⟨c1, c2, c3⟩ := click_wall_first sqrt a.1 s a.2 ht htp
    obtain ⟨w, d1, d2, d3, d4, d5⟩ :=
      click_wall_second sqrt b.1 (handleCanvasClick sqrt a.1 s (some a.2)) (snap a.2) b.2 c3 c2
    have hstep : clicks sqrt s (a :: b :: rest) =
        clicks sqrt (handleCanvasClick sqrt b.1 (handleCanvasClick sqrt a.1 s (some a.2))
          (some b.2)) rest := rfl
    rw [hstep]
    have hab : snap a.2 ≠ snap b.2 := hp 0 a b (by simp) (by simp)
    refine clicks_pairs_distinct sqrt rest _ d5 d4 ?_ ?_
    · rw [d1, c1]
      intro v hv
      rcases List.mem_append.mp hv with hv | hv
      · exact hw v hv
      · rw [List.mem_singleton.mp hv, d2, d3]
        exact hab
    · intro k x y hx hy
      have e1 : 2 * (k + 1) = 2 * k + 1 + 1 := by ring
      have e2 : 2 * (k + 1) + 1 = 2 * k + 1 + 1 + 1 := by ring
      refine hp (k + 1) x y ?_ ?_
      · rw [e1, List.getElem?_cons_succ, List.getElem?_cons_succ]
        exact hx
      · rw [e2, List.getElem?_cons_succ, List.getElem?_cons_succ]
        exact hy

end Clicks

/-- C9 (counterexample): with the wall tool selected, two clicks on the grid point
`(1, 1)` store a wall whose `start` and `end` are the same point. -/
theorem wall_of_repeated_click :
    ∃ w ∈ (clicks Rat.sqrt (setTool (emptyDocument ℚ) (some Tool.wall))
      [(20, ⟨1, 0, 1⟩), (20, ⟨1, 0, 1⟩)]).walls, w.start = w.end_ :=
  ⟨_, List.mem_cons_self _ _, rfl⟩

/-- C9 (amended): from the empty document with the wall tool selected, after any
sequence of canvas clicks in which the two clicks of each wall (the clicks `2k+1` and
`2k+2` of the sequence) snap to different grid points, every wall stored in `walls` has
`start ≠ end`.  One wall may end on the point where the next one starts. -/
theorem walls_distinct_of_distinct_pairs {K : Type} [LinearOrderedField K] [FloorRing K]
    (sqrt : K → K) (picks : List (K × Vector3 K))
    (h : ∀ (k : ℕ) (a b : K × Vector3 K), picks[2 * k]? = some a → picks[2 * k + 1]? = some b →
      snap a.2 ≠ snap b.2) :
    ∀ w ∈ (clicks sqrt (setTool (emptyDocument K) (some Tool.wall)) picks).walls,
      w.start ≠ w.end_ :=
  clicks_pairs_distinct sqrt picks (setTool (emptyDocument K) (some Tool.wall)) rfl rfl
    (fun _ hw => absurd hw (List.not_mem_nil _)) h

/-- Witness of C9 (amended): two connected walls, `(0, 0)` to `(3, 0)` and `(3, 0)` to
`(3, 2)`, drawn by the clicks `(0, 0)`, `(3, 0)`, `(3, 0)`, `(3, 2)`. -/
theorem walls_distinct_of_distinct_pairs_witness :
    (∀ (k : ℕ) (a b : ℚ × Vector3 ℚ),
      ([(20, ⟨0, 0, 0⟩), (20, ⟨3, 0, 0⟩), (20, ⟨3, 0, 0⟩), (20, ⟨3, 0, 2⟩)] :
        List (ℚ × Vector3 ℚ))[2 * k]? = some a →
      ([(20, ⟨0, 0, 0⟩), (20, ⟨3, 0, 0⟩), (20, ⟨3, 0, 0⟩), (20, ⟨3, 0, 2⟩)] :
        List (ℚ × Vector3 ℚ))[2 * k + 1]? = some b →
      snap a.2 ≠ snap b.2) ∧
    ∀ w ∈ (clicks Rat.sqrt (setTool (emptyDocument ℚ) (some Tool.wall))
      [(20, ⟨0, 0, 0⟩), (20, ⟨3, 0, 0⟩), (20, ⟨3, 0, 0⟩), (20, ⟨3, 0, 2⟩)]).walls,
      w.start ≠ w.end_ := by
  have h0 : Math.round ((0 : ℚ) * 2) = 0 := by
    unfold Math.round
    rw [Int.floor_eq_iff]
    norm_num
  have h2 : Math.round ((2 : ℚ) * 2) = 4 := by
    unfold Math.round
    rw [Int.floor_eq_iff]
    norm_num
  have h3 : Math.round ((3 : ℚ) * 2) = 6 := by
    unfold Math.round
    rw [Int.floor_eq_iff]
    norm_num
  have hp : ∀ (k : ℕ) (a b : ℚ × Vector3 ℚ),
      ([(20, ⟨0, 0, 0⟩), (20, ⟨3, 0, 0⟩), (20, ⟨3, 0, 0⟩), (20, ⟨3, 0, 2⟩)] :
        List (ℚ × Vector3 ℚ))[2 * k]? = some a →
      ([(20, ⟨0, 0, 0⟩), (20, ⟨3, 0, 0⟩), (20, ⟨3, 0, 0⟩), (20, ⟨3, 0, 2⟩)] :
        List (ℚ × Vector3 ℚ))[2 * k + 1]? = some b →
      snap a.2 ≠ snap b.2 := by
    intro k a b ha hb
    match k, ha, hb with
    | 0, ha, hb =>
      have ea : a = (20, ⟨0, 0, 0⟩) := (Option.some.inj ha).symm
      have eb : b = (20, ⟨3, 0, 0⟩) := (Option.some.inj hb).symm
      subst ea eb
      intro h
      have hx := congrArg Vector3.x h
      simp only [snap, h0, h3] at hx
      norm_num at hx
    | 1, ha, hb =>
      have ea : a = (20, ⟨3, 0, 0⟩) := (Option.some.inj ha).symm
      have eb : b = (20, ⟨3, 0, 2⟩) := (Option.some.inj hb).symm
      subst ea eb
      intro h
      have hz := congrArg Vector3.z h
      simp only [snap, h0, h2] at hz
      norm_num at hz
    | k + 2, ha, _ =>
      have hnone : ([(20, ⟨0, 0, 0⟩), (20, ⟨3, 0, 0⟩), (20, ⟨3, 0, 0⟩), (20, ⟨3, 0, 2⟩)] :
          List (ℚ × Vector3 ℚ))[2 * (k + 2)]? = none :=
        List.getElem?_eq_none (by simp only [List.length_cons, List.length_nil]; omega)
      rw [hnone] at ha
      exact absurd ha (by simp)
  exact ⟨hp, walls_distinct_of_distinct_pairs Rat.sqrt _ hp⟩

/-! ## Geometry of dimensions and hatching -/

section Geometry

theorem normalize_eq_scale {K : Type} [LinearOrderedField K] (sqrt : K → K) (v : Vector3 K)
    (h : v.length sqrt ≠ 0) :
    Vector3.normalize sqrt v = v.scale (1 / v.length sqrt) := by
  unfold Vector3.normalize
  dsimp only
  split_ifs with h1
  · rcases h1 with h1 | h1
    · exact absurd h1 h
    · rw [h1]
      ext <;> simp [Vector3.scale]
  · rfl

theorem perpendicular_length_pos (start end_ : Vector3 ℝ) (hy : start.y = end_.y)
    (hne : start ≠ end_) :
    0 < (end_.x - start.x) * (end_.x - start.x) + (end_.z - start.z) * (end_.z - start.z) := by
  have h : end_.x - start.x ≠ 0 ∨ end_.z - start.z ≠ 0 := by
    by_contra hcon
    push_neg at hcon
    apply hne
    ext
    · linarith [hcon.1]
    · exact hy
    · linarith [hcon.2]
  rcases h with h | h
  · have := mul_self_pos.mpr h
    have := mul_self_nonneg (end_.z - start.z)
    linarith
  · have := mul_self_pos.mpr h
    have := mul_self_nonneg (end_.x - start.x)
    linarith

theorem add_neg_scale_eq_subtract {K : Type} [LinearOrderedField K] (pos perp : Vector3 K)
    (t : K) : pos.add (perp.scale (-t / 2)) = pos.subtract (perp.scale (t / 2)) := by
  ext <;> simp only [Vector3.add, Vector3.subtract, Vector3.scale] <;> ring

end Geometry

/-- C6: for two points of the plan (same `y`, as all clicked points have) with
`start ≠ end`, the main line `(dimStart, dimEnd)` built by `createDimension` is as long
as `(start, end)`; `dimStart - start` and `dimEnd - end` are one and the same vector, of
length `0.5` and perpendicular to `end - start`; the extension lines are
`(start, dimStart)` and `(end, dimEnd)`; and the dimension is pushed on `dimensions`. -/
theorem createDimension_geometry (s : State ℝ) (start end_ : Vector3 ℝ) (length : ℝ)
    (hy : start.y = end_.y) (hne : start ≠ end_) :
    Vector3.length Real.sqrt
        ((createDimension Real.sqrt s start end_ length).1.lines.b.subtract
          (createDimension Real.sqrt s start end_ length).1.lines.a) =
      Vector3.length Real.sqrt (end_.subtract start) ∧
    (createDimension Real.sqrt s start end_ length).1.lines.a.subtract start =
      (createDimension Real.sqrt s start end_ length).1.lines.b.subtract end_ ∧
    Vector3.length Real.sqrt
        ((createDimension Real.sqrt s start end_ length).1.lines.a.subtract start) = 1 / 2 ∧
    Vector3.Dot ((createDimension Real.sqrt s start end_ length).1.lines.a.subtract start)
        (end_.subtract start) = 0 ∧
    (createDimension Real.sqrt s start end_ length).1.ext1 =
      ⟨start, (createDimension Real.sqrt s start end_ length).1.lines.a⟩ ∧
    (createDimension Real.sqrt s start end_ length).1.ext2 =
      ⟨end_, (createDimension Real.sqrt s start end_ length).1.lines.b⟩ ∧
    (createDimension Real.sqrt s start end_ length).2.dimensions =
      s.dimensions ++ [(createDimension Real.sqrt s start end_ length).1] := by
  have hpos := perpendicular_length_pos start end_ hy hne
  set dx := end_.x - start.x with hdx
  set dz := end_.z - start.z with hdz
  have hsq : Vector3.lengthSquared (⟨-dz, 0, dx⟩ : Vector3 ℝ) = dx * dx + dz * dz := by
    simp only [Vector3.lengthSquared]
    ring
  set L := Vector3.length Real.sqrt (⟨-dz, 0, dx⟩ : Vector3 ℝ) with hL
  have hLpos : 0 < L := by
    rw [hL, Vector3.length, hsq]
    exact Real.sqrt_pos.mpr hpos
  have hLL : L * L = dx * dx + dz * dz := by
    rw [hL, Vector3.length, hsq]
    exact Real.mul_self_sqrt hpos.le
  have hnorm : Vector3.normalize Real.sqrt (⟨-dz, 0, dx⟩ : Vector3 ℝ) =
      Vector3.scale ⟨-dz, 0, dx⟩ (1 / L) :=
    normalize_eq_scale Real.sqrt _ hLpos.ne'
  have hdir : end_.subtract start = ⟨dx, end_.y - start.y, dz⟩ := rfl
  have hcd : (createDimension Real.sqrt s start end_ length).1.lines =
      ⟨start.add ((Vector3.scale ⟨-dz, 0, dx⟩ (1 / L)).scale (1 / 2)),
       end_.add ((Vector3.scale ⟨-dz, 0, dx⟩ (1 / L)).scale (1 / 2))⟩ := by
    simp only [createDimension, hdir, hnorm]
  have hoff : (start.add ((Vector3.scale ⟨-dz, 0, dx⟩ (1 / L)).scale (1 / 2))).subtract start
      = ⟨-dz * (1 / L) * (1 / 2), 0, dx * (1 / L) * (1 / 2)⟩ := by
    ext <;> simp [Vector3.add, Vector3.subtract, Vector3.scale]
  refine ⟨?_, ?_, ?_, ?_, rfl, rfl, rfl⟩
  · rw [hcd]
    congr 1
    ext <;> simp only [Vector3.add, Vector3.subtract, Vector3.scale] <;> ring
  · rw [hcd]
    ext <;> simp only [Vector3.add, Vector3.subtract, Vector3.scale] <;> ring
  · rw [hcd]
    simp only []
    rw [hoff, Vector3.length]
    have h4 : Vector3.lengthSquared
        (⟨-dz * (1 / L) * (1 / 2), 0, dx * (1 / L) * (1 / 2)⟩ : Vector3 ℝ) = (1 / 2) ^ 2 := by
      simp only [Vector3.lengthSquared]
      have hL0 : L ≠ 0 := hLpos.ne'
      field_simp
      nlinarith [hLL]
    rw [h4, Real.sqrt_sq (by norm_num)]
  · rw [hcd]
    simp only []
    rw [hoff, hdir]
    simp only [Vector3.Dot]
    ring

/-- Witness of C6: the dimension of the wall from `(0, 0)` to `(3, 0)`. -/
theorem createDimension_geometry_witness :
    (⟨0, 0, 0⟩ : Vector3 ℝ).y = (⟨3, 0, 0⟩ : Vector3 ℝ).y ∧
    (⟨0, 0, 0⟩ : Vector3 ℝ) ≠ ⟨3, 0, 0⟩ ∧
    Vector3.length Real.sqrt
      ((createDimension Real.sqrt (emptyDocument ℝ) ⟨0, 0, 0⟩ ⟨3, 0, 0⟩ 3).1.lines.a.subtract
        ⟨0, 0, 0⟩) = 1 / 2 := by
  have hne : (⟨0, 0, 0⟩ : Vector3 ℝ) ≠ ⟨3, 0, 0⟩ := by
    intro h
    have hx := congrArg Vector3.x h
    norm_num at hx
  exact ⟨rfl, hne,
    (createDimension_geometry (emptyDocument ℝ) ⟨0, 0, 0⟩ ⟨3, 0, 0⟩ 3 rfl hne).2.2.1⟩

/-- C7: `createHatching` returns at least one tick for every `start`, `end` and
`thickness`; when the length of `(start, end)` is at least `0.1` it returns
`count + 1` ticks with `count = floor(length / 0.1)`, and for every `i` from `0` to
`count` the `i`-th tick runs from `pos + perp * thickness/2` to
`pos - perp * thickness/2` with `pos = lerp(start, end, i / count)`. -/
theorem createHatching_ticks (s : State ℝ) (start end_ : Vector3 ℝ) (thickness : ℝ) :
    1 ≤ (createHatching Real.sqrt s start end_ thickness).length ∧
    (1 / 10 ≤ Vector3.length Real.sqrt (end_.subtract start) →
      (((createHatching Real.sqrt s start end_ thickness).length : ℕ) : ℤ) =
        Math.floor (Vector3.length Real.sqrt (end_.subtract start) / (1 / 10)) + 1 ∧
      ∀ i : ℕ,
        (i : ℤ) ≤ Math.floor (Vector3.length Real.sqrt (end_.subtract start) / (1 / 10)) →
        (createHatching Real.sqrt s start end_ thickness)[i]? =
          some
            { wall := s.walls.length
              i := i
              points := some
                ⟨(Vector3.Lerp start end_ ((i : ℝ) /
                    (Math.floor (Vector3.length Real.sqrt (end_.subtract start) / (1 / 10))
                      : ℝ))).add
                  ((Vector3.normalize Real.sqrt
                    ⟨-(end_.subtract start).z, 0, (end_.subtract start).x⟩).scale
                      (thickness / 2)),
                 (Vector3.Lerp start end_ ((i : ℝ) /
                    (Math.floor (Vector3.length Real.sqrt (end_.subtract start) / (1 / 10))
                      : ℝ))).subtract
                  ((Vector3.normalize Real.sqrt
                    ⟨-(end_.subtract start).z, 0, (end_.subtract start).x⟩).scale
                      (thickness / 2))⟩ }) := by
  have hL : 0 ≤ Vector3.length Real.sqrt (end_.subtract start) := Real.sqrt_nonneg _
  set L := Vector3.length Real.sqrt (end_.subtract start) with hLdef
  have hc0 : 0 ≤ Math.floor (L / (1 / 10)) := by
    unfold Math.floor
    exact Int.floor_nonneg.mpr (div_nonneg hL (by norm_num))
  have hlen : (createHatching Real.sqrt s start end_ thickness).length =
      (Math.floor (L / (1 / 10)) + 1).toNat := by
    simp only [createHatching, List.length_map, List.length_range, ← hLdef]
  refine ⟨?_, ?_⟩
  · rw [hlen]
    omega
  · intro h10
    have hc1 : 1 ≤ Math.floor (L / (1 / 10)) := by
      unfold Math.floor
      rw [Int.le_floor]
      rw [le_div_iff₀ (by norm_num)]
      simpa using h10
    refine ⟨?_, ?_⟩
    · rw [hlen]
      omega
    · intro i hi
      have hlt : i < (Math.floor (L / (1 / 10)) + 1).toNat := by omega
      have hcne : ((Math.floor (L / (1 / 10)) : ℤ) : ℝ) ≠ 0 := by
        have : (1 : ℝ) ≤ ((Math.floor (L / (1 / 10)) : ℤ) : ℝ) := by exact_mod_cast hc1
        linarith
      simp only [createHatching, ← hLdef, List.getElem?_map, List.getElem?_range hlt,
        Option.map_some', JS.div, if_neg hcne, add_neg_scale_eq_subtract]

/-- Witness of C7: the hatching of the wall from `(0, 0)` to `(3, 0)`. -/
theorem createHatching_ticks_witness :
    (1 / 10 : ℝ) ≤
      Vector3.length Real.sqrt (Vector3.subtract (⟨3, 0, 0⟩ : Vector3 ℝ) ⟨0, 0, 0⟩) ∧
    (((createHatching Real.sqrt (emptyDocument ℝ) ⟨0, 0, 0⟩ ⟨3, 0, 0⟩ (1 / 5)).length : ℕ) : ℤ)
      = Math.floor (Vector3.length Real.sqrt
          (Vector3.subtract (⟨3, 0, 0⟩ : Vector3 ℝ) ⟨0, 0, 0⟩) / (1 / 10)) + 1 := by
  have h9 : Vector3.length Real.sqrt
      (Vector3.subtract (⟨3, 0, 0⟩ : Vector3 ℝ) ⟨0, 0, 0⟩) = 3 := by
    have : Vector3.lengthSquared
        (Vector3.subtract (⟨3, 0, 0⟩ : Vector3 ℝ) ⟨0, 0, 0⟩) = 3 ^ 2 := by
      simp only [Vector3.lengthSquared, Vector3.subtract]
      norm_num
    rw [Vector3.length, this, Real.sqrt_sq (by norm_num)]
  have h10 : (1 / 10 : ℝ) ≤
      Vector3.length Real.sqrt (Vector3.subtract (⟨3, 0, 0⟩ : Vector3 ℝ) ⟨0, 0, 0⟩) := by
    rw [h9]
    norm_num
  exact ⟨h10,
    ((createHatching_ticks (emptyDocument ℝ) ⟨0, 0, 0⟩ ⟨3, 0, 0⟩ (1 / 5)).2 h10).1⟩

/-! ## The divisor of `createHatching` -/

theorem createHatching_of_count_zero {K : Type} [LinearOrderedField K] [FloorRing K]
    (sqrt : K → K) (s : State K) (start end_ : Vector3 K) (thickness : K)
    (h : Math.floor (Vector3.length sqrt (end_.subtract start) / (1 / 10)) = 0) :
    createHatching sqrt s start end_ thickness =
      [{ wall := s.walls.length, i := 0, points := none }] := by
  simp only [createHatching, h]
  simp [JS.div, List.range_succ]

/-- C11 (the code at the failing input): `createHatching` on the degenerate wall
`start = end = (1, 0, 1)`.  `hatchCount` is `0`, the loop body runs once with `i = 0`
and evaluates `0 / 0`: one hatch line is returned and its parameter `t` is no finite
number, so it has no finite end points and is not centred at `start`. -/
theorem createHatching_divides_by_zero :
    Math.floor (Vector3.length Real.sqrt
      (Vector3.subtract (⟨1, 0, 1⟩ : Vector3 ℝ) ⟨1, 0, 1⟩) / (1 / 10)) = 0 ∧
    JS.div (((0 : ℕ) : ℝ)) (((0 : ℤ) : ℝ)) = none ∧
    createHatching Real.sqrt (emptyDocument ℝ) ⟨1, 0, 1⟩ ⟨1, 0, 1⟩ (1 / 5) =
      [{ wall := 0, i := 0, points := none }] := by
  have h0 : Math.floor (Vector3.length Real.sqrt
      (Vector3.subtract (⟨1, 0, 1⟩ : Vector3 ℝ) ⟨1, 0, 1⟩) / (1 / 10)) = 0 := by
    simp [Math.floor, Vector3.length, Vector3.lengthSquared, Vector3.subtract]
  refine ⟨h0, by simp [JS.div], ?_⟩
  exact createHatching_of_count_zero Real.sqrt (emptyDocument ℝ) ⟨1, 0, 1⟩ ⟨1, 0, 1⟩ (1 / 5) h0

end FloorPlan
